import Mathlib

/-!
Shallow embedding of the billing/quota engine, payment reconciler and chat
history truncation of the Telegram-bot backend (src/app/services/billing_service.py,
src/app/services/payment_service.py, src/app/services/openai_service.py,
src/app/api/routers/payments.py, src/app/api/routers/chat.py,
src/app/database/models.py, src/app/config.py).

Conventions of the embedding:
* `datetime.utcnow()` is an explicit `DateTime` parameter `now` threaded through
  every operation; `DateTime` carries a Gregorian calendar date plus a
  second-of-day, ordered lexicographically, exactly the order SQL/`datetime`
  comparison gives.
* The database session is an explicit `DB` value (lists of rows); ORM row
  mutation plus `commit` is modelled as a pure state update, `rollback` as
  returning the pre-transaction state.
* Machine integers are `Int`/`Nat` (Python ints are unbounded, so no wrap).
* Row fields the verified operations never read or write (languages, emails,
  float prices, model lists) are omitted from the row structures.
-/

namespace TgBot

/-! ### Calendar time -/

structure DateTime where
  year : Nat
  month : Nat
  day : Nat
  /-- second of day -/
  sod : Nat
  deriving Repr, DecidableEq

/-- Lexicographic order on (year, month, day, second-of-day): the order in which
`datetime` values compare in Python and in SQL. -/
def dtLt (a b : DateTime) : Bool :=
  if a.year ≠ b.year then a.year < b.year
  else if a.month ≠ b.month then a.month < b.month
  else if a.day ≠ b.day then a.day < b.day
  else a.sod < b.sod

def dtLe (a b : DateTime) : Bool :=
  dtLt a b || a == b

def isLeap (y : Nat) : Bool :=
  (y % 4 == 0 && y % 100 != 0) || y % 400 == 0

def daysInMonth (y m : Nat) : Nat :=
  if m == 2 then (if isLeap y then 29 else 28)
  else if m == 4 || m == 6 || m == 9 || m == 11 then 30
  else 31

def nextDay (t : DateTime) : DateTime :=
  if t.day < daysInMonth t.year t.month then { t with day := t.day + 1 }
  else if t.month < 12 then { t with month := t.month + 1, day := 1 }
  else { year := t.year + 1, month := 1, day := 1, sod := t.sod }

/-- Python `t + timedelta(days = n)`. -/
def addDays (t : DateTime) : Nat → DateTime
  | 0 => t
  | n + 1 => nextDay (addDays t n)

/-- Python `x.date()` / SQL `date(x)`: the calendar-day part. -/
def dateOf (t : DateTime) : Nat × Nat × Nat :=
  (t.year, t.month, t.day)

/-- Python `datetime.utcnow().replace(day=1, hour=0, minute=0, second=0, microsecond=0)`. -/
def startOfMonth (t : DateTime) : DateTime :=
  { t with day := 1, sod := 0 }

/-! ### Data model (src/app/database/models.py) -/

structure User where
  id : Nat
  trialLeft : Int
  planId : Option Nat
  planUntil : Option DateTime
  banned : Bool
  deriving Repr, DecidableEq

structure Plan where
  id : Nat
  name : String
  /-- Sentinel `-1` = unlimited -/
  monthlyQuota : Int
  deriving Repr, DecidableEq

structure Purchase where
  userId : Nat
  planId : Nat
  via : String
  status : String
  amount : Int
  currency : String
  /-- JSON payload, flattened to string key/value pairs; `payload->>'k'` is
  `payloadGet payload k`. -/
  payload : List (String × String)
  completedAt : Option DateTime
  deriving Repr, DecidableEq

structure UsageRow where
  userId : Nat
  date : DateTime
  requests : Nat
  totalTokens : Nat
  deriving Repr, DecidableEq

structure DB where
  users : List User
  plans : List Plan
  purchases : List Purchase
  usage : List UsageRow
  deriving Repr, DecidableEq

/-- Lookup `payload->>'k'` on a flattened JSON object. -/
def payloadGet (p : List (String × String)) (k : String) : Option String :=
  (p.find? (fun kv => kv.1 == k)).map (fun kv => kv.2)

/-- SQL `select(User).where(User.id == user_id)` + `scalar_one_or_none()`. -/
def findUser (db : DB) (uid : Nat) : Option User :=
  db.users.find? (fun u => u.id == uid)

/-- SQL `SELECT id FROM plans WHERE ...` by id (the `User.plan` relationship). -/
def findPlan (db : DB) (pid : Nat) : Option Plan :=
  db.plans.find? (fun p => p.id == pid)

/-- ORM mutation of the selected user row followed by commit. -/
def updateUser (db : DB) (uid : Nat) (f : User → User) : DB :=
  { db with users := db.users.map (fun u => if u.id == uid then f u else u) }

/-! ### Quota engine (src/app/services/billing_service.py) -/

/-- Setting `settings.trial_requests` (src/app/config.py, default 30). -/
def trialRequests : Nat := 30

/-- The Python truthiness test
`user.plan_id and user.plan_until and user.plan_until > datetime.utcnow()`
(an id of `0` or a `None` in either field is falsy). -/
def hasActivePlan (u : User) (now : DateTime) : Bool :=
  match u.planId, u.planUntil with
  | some pid, some pu => pid != 0 && dtLt now pu
  | _, _ => false

/-- SQL `select(func.sum(Usage.requests)).where(user_id == uid, Usage.date >= start_of_month)`,
with `scalar() or 0`. -/
def usedThisMonth (db : DB) (uid : Nat) (now : DateTime) : Nat :=
  ((db.usage.filter (fun r => r.userId == uid && dtLe (startOfMonth now) r.date)).map
    (fun r => r.requests)).sum

/-- The dict returned by `BillingService.get_user_quota`. -/
structure QuotaView where
  trialLeft : Int
  planName : Option String
  planUntil : Option DateTime
  monthlyQuota : Int
  usedThisMonth : Nat
  remaining : Int
  isTrial : Bool
  isActive : Bool
  deriving Repr, DecidableEq

/-- Embeds `BillingService.get_user_quota` (billing_service.py lines 17-75). The
function performs only SELECTs: it takes a `DB` and returns no new one. -/
def getUserQuota (db : DB) (uid : Nat) (now : DateTime) : QuotaView :=
  match findUser db uid with
  | none =>
    { trialLeft := (trialRequests : Int), planName := none, planUntil := none
      monthlyQuota := 0, usedThisMonth := 0, remaining := (trialRequests : Int)
      isTrial := true, isActive := true }
  | some user =>
    let active := hasActivePlan user now
    let plan := user.planId.bind (findPlan db)
    let planName := if active then plan.map (fun p => p.name) else none
    let monthlyQuota : Int :=
      if active then (match plan with | some p => p.monthlyQuota | none => 0) else 0
    let used := usedThisMonth db uid now
    let remaining : Int :=
      if active then max 0 (monthlyQuota - (used : Int)) else max 0 user.trialLeft
    { trialLeft := user.trialLeft, planName := planName, planUntil := user.planUntil
      monthlyQuota := monthlyQuota, usedThisMonth := used, remaining := remaining
      isTrial := !active, isActive := active }

/-- Embeds `BillingService.can_make_request`: `quota["remaining"] > 0`. -/
def canMakeRequest (db : DB) (uid : Nat) (now : DateTime) : Bool :=
  (getUserQuota db uid now).remaining > 0

/-- The row predicate of `_log_usage`'s SELECT:
`Usage.user_id == user_id AND func.date(Usage.date) == today`. -/
def usageMatch (uid : Nat) (d : Nat × Nat × Nat) (r : UsageRow) : Bool :=
  r.userId == uid && dateOf r.date == d

/-- In-place `usage.requests += 1; usage.total_tokens += tokens` on the first
row today's SELECT would return. -/
def bumpUsage (uid tokens : Nat) (d : Nat × Nat × Nat) : List UsageRow → List UsageRow
  | [] => []
  | r :: rs =>
    if usageMatch uid d r then
      { r with requests := r.requests + 1, totalTokens := r.totalTokens + tokens } :: rs
    else r :: bumpUsage uid tokens d rs

/-- Embeds `BillingService._log_usage` on the usage table (billing_service.py lines
111-139): upsert-by-day, the inserted row dated `utcnow`. -/
def logUsageRows (uid tokens : Nat) (now : DateTime) (rows : List UsageRow) : List UsageRow :=
  match rows.find? (usageMatch uid (dateOf now)) with
  | some _ => bumpUsage uid tokens (dateOf now) rows
  | none => rows ++ [{ userId := uid, date := now, requests := 1, totalTokens := tokens }]

def logUsage (db : DB) (uid tokens : Nat) (now : DateTime) : DB :=
  { db with usage := logUsageRows uid tokens now db.usage }

/-- Embeds `BillingService.consume_request` (billing_service.py lines 84-109),
returning the Python result together with the committed database state. -/
def consumeRequest (db : DB) (uid tokens : Nat) (now : DateTime) : Bool × DB :=
  match findUser db uid with
  | none => (false, db)
  | some user =>
    if hasActivePlan user now then
      (true, logUsage db uid tokens now)
    else if user.trialLeft > 0 then
      (true, logUsage (updateUser db uid (fun u => { u with trialLeft := u.trialLeft - 1 })) uid tokens now)
    else
      (false, db)

/-- Embeds `BillingService.activate_plan` (billing_service.py lines 141-164). -/
def activatePlan (db : DB) (uid pid : Nat) (durationDays : Nat) (now : DateTime) : Bool × DB :=
  match findUser db uid with
  | none => (false, db)
  | some _ =>
    (true, updateUser db uid (fun u =>
      { u with planId := some pid, planUntil := some (addDays now durationDays) }))

/-! ### Payment reconciler (src/app/services/payment_service.py)

Session semantics in both reconciler paths: `session.add(purchase)` stages the
row; `billing_service.activate_plan` commits it together with the plan update
when the user exists; the caller's `session.rollback()` on activation failure
discards the staged purchase.  The HMAC-SHA256 signature check
(`_verify_yoomoney_signature`) is an external crypto collaborator, passed in as
the function `verify`. -/

/-- The composite Stars idempotency key
`f"stars_{user_id}_{plan_name}_{telegram_charge_id}"`. -/
def starsKey (uid : Nat) (planName chargeId : String) : String :=
  "stars_" ++ toString uid ++ "_" ++ planName ++ "_" ++ chargeId

/-- SQL `SELECT id FROM plans WHERE name = ...` + `scalar_one_or_none()`. -/
def findPlanByName (db : DB) (name : String) : Option Plan :=
  db.plans.find? (fun p => p.name == name)

/-- The commit/rollback tail both reconciler paths duplicate verbatim
(payment_service.py lines 87-116 and 211-240): `session.add(purchase)` stages
the row, `activate_plan` selects the user and on success commits the staged
purchase together with the plan update; on failure the caller's
`session.rollback()` discards the staged purchase. -/
def stageCommit (db : DB) (uid pid : Nat) (purchase : Purchase) (now : DateTime) :
    Bool × DB :=
  let staged := { db with purchases := db.purchases ++ [purchase] }
  let res := activatePlan staged uid pid 30 now
  if res.1 then (true, res.2) else (false, db)

/-- Embeds `PaymentService.process_stars_payment` (payment_service.py lines 55-116). -/
def processStarsPayment (db : DB) (uid : Nat) (planName chargeId : String)
    (amount : Int) (now : DateTime) : Bool × DB :=
  let key := starsKey uid planName chargeId
  match db.purchases.find? (fun pu => payloadGet pu.payload "idempotency_key" == some key) with
  | some _ => (true, db)
  | none =>
    match findPlanByName db planName with
    | none => (false, db)
    | some plan =>
      let purchase : Purchase :=
        { userId := uid, planId := plan.id, via := "stars", status := "completed"
          amount := amount, currency := "STARS"
          payload := [("idempotency_key", key), ("telegram_charge_id", chargeId),
                      ("plan_name", planName)]
          completedAt := some now }
      stageCommit db uid plan.id purchase now

/-- The fields of the webhook JSON body the reconciler reads:
`object.id`, `object.status`, `object.metadata.{user_id, plan_name}`,
`object.amount.value` (`none` models an absent key). -/
structure Webhook where
  objectId : Option String
  objectStatus : Option String
  metaUserId : Option Nat
  metaPlanName : Option String
  amountValue : Int
  deriving Repr, DecidableEq

/-- The `"webhook_data": webhook_data` payload entry, serialized. -/
def reprWebhook (w : Webhook) : String :=
  toString (repr w)

/-- Embeds `PaymentService.process_yoomoney_webhook` (payment_service.py lines
161-240).  `verify` is the outcome of `_verify_yoomoney_signature` on this
payload and signature. -/
def processYoomoneyWebhook (verify : Webhook → String → Bool) (db : DB)
    (w : Webhook) (sig : String) (now : DateTime) : Bool × DB :=
  if !verify w sig then (false, db)
  else
    let paymentIdTruthy : Bool := match w.objectId with | some s => s != "" | none => false
    if !paymentIdTruthy || w.objectStatus != some "succeeded" then (false, db)
    else
      let userIdTruthy : Bool := match w.metaUserId with | some n => n != 0 | none => false
      let planNameTruthy : Bool := match w.metaPlanName with | some s => s != "" | none => false
      if !userIdTruthy || !planNameTruthy then (false, db)
      else
        let paymentId := w.objectId.getD ""
        let uid := w.metaUserId.getD 0
        let planName := w.metaPlanName.getD ""
        match db.purchases.find?
            (fun pu => payloadGet pu.payload "yoomoney_payment_id" == some paymentId) with
        | some _ => (true, db)
        | none =>
          match findPlanByName db planName with
          | none => (false, db)
          | some plan =>
            let purchase : Purchase :=
              { userId := uid, planId := plan.id, via := "yoomoney", status := "completed"
                amount := w.amountValue, currency := "RUB"
                payload := [("yoomoney_payment_id", paymentId), ("plan_name", planName),
                            ("webhook_data", reprWebhook w)]
                completedAt := some now }
            stageCommit db uid plan.id purchase now

/-- HTTP outcome of the webhook route. -/
inductive HttpResult where
  | ok
  | clientError (code : Nat) (detail : String)
  deriving Repr, DecidableEq

/-- The `/yoomoney/webhook` route handler (src/app/api/routers/payments.py
lines 39-67): missing signature header → 400; reconciler failure → 400;
success → 200 `{"status": "ok"}`. -/
def yoomoneyWebhookRoute (verify : Webhook → String → Bool) (db : DB)
    (w : Webhook) (sigHeader : Option String) (now : DateTime) : HttpResult × DB :=
  match sigHeader with
  | none => (HttpResult.clientError 400 "Missing signature", db)
  | some sig =>
    let res := processYoomoneyWebhook verify db w sig now
    if res.1 then (HttpResult.ok, res.2)
    else (HttpResult.clientError 400 "Webhook processing failed", res.2)

/-! ### Chat history truncation (src/app/services/openai_service.py) -/

structure Msg where
  role : String
  content : String
  deriving Repr, DecidableEq

/-- Embeds `OpenAIService.count_tokens`: `len(text) // 3`. -/
def countTokens (text : String) : Nat :=
  text.length / 3

/-- The loop body of `truncate_messages` over `reversed(messages)` (newest
first), carrying `total_tokens`; `insert(0, ...)` is reconstructed by the
final reverse in `truncateMessages`. -/
def takeWithinBudget (maxTokens : Nat) : Nat → List Msg → List Msg
  | _, [] => []
  | total, m :: rest =>
    let c := countTokens m.content
    if total + c ≤ maxTokens then m :: takeWithinBudget maxTokens (total + c) rest
    else []

/-- Embeds `OpenAIService.truncate_messages` (openai_service.py lines 98-120). -/
def truncateMessages (messages : List Msg) (maxTokens : Nat) : List Msg :=
  (takeWithinBudget maxTokens 0 messages.reverse).reverse

/-- The authorization decision of the chat routes (src/app/api/routers/chat.py
lines 46-60): `POST /send` gates on `billing_service.can_make_request` only. -/
def sendMessageAuthorized (db : DB) (uid : Nat) (now : DateTime) : Bool :=
  canMakeRequest db uid now

/-! ### Banned-flag non-interference machinery -/

/-- Rewrite every user's `banned` flag by `f`; two databases differing only in
banned flags are `db` and `mapBanned f db` for some `f`. -/
def mapBanned (f : Nat → Bool) (db : DB) : DB :=
  { db with users := db.users.map (fun u => { u with banned := f u.id }) }

/-! ### Iteration helpers and per-day request totals -/

/-- Total `requests` logged for `uid` on calendar day `d`. -/
def reqsToday (db : DB) (uid : Nat) (d : Nat × Nat × Nat) : Nat :=
  ((db.usage.filter (usageMatch uid d)).map (fun r => r.requests)).sum

/-- State after `n` sequential `consume_request` calls for the same user. -/
def consumeIter (db : DB) (uid tokens : Nat) (now : DateTime) : Nat → DB
  | 0 => db
  | n + 1 => (consumeRequest (consumeIter db uid tokens now n) uid tokens now).2

/-- State after `n` calls of `_log_usage` for the same user at the same
instant `now`. -/
def logIter (db : DB) (uid tokens : Nat) (now : DateTime) : Nat → DB
  | 0 => db
  | n + 1 => logUsage (logIter db uid tokens now n) uid tokens now

/-! ### Concrete fixtures used by the witness theorems -/

def wNow : DateTime := ⟨2026, 10, 12, 3600⟩

def wLater : DateTime := ⟨2026, 11, 20, 0⟩

def wUserBiz : User :=
  { id := 42, trialLeft := 3, planId := some 1, planUntil := some wLater, banned := false }

def wUserTrial : User :=
  { id := 7, trialLeft := 2, planId := none, planUntil := none, banned := false }

def wPlanBiz : Plan := { id := 1, name := "Business", monthlyQuota := -1 }

def wPlanPro : Plan := { id := 2, name := "Pro", monthlyQuota := 1500 }

def wDB : DB :=
  { users := [wUserBiz, wUserTrial], plans := [wPlanBiz, wPlanPro], purchases := [], usage := [] }

/-! ### Idempotency-key invariant (spec section 3, Purchase) -/

/-- The completed purchases whose payload field `field` equals `key`. -/
def completedWithKey (field key : String) (l : List Purchase) : List Purchase :=
  l.filter (fun pu => pu.status == "completed" && payloadGet pu.payload field == some key)

/-- At most one completed Purchase per idempotency key, for both
channel-specific key fields (`idempotency_key` carries the Stars composite key,
`yoomoney_payment_id` the gateway's payment id). -/
def idemInvariant (l : List Purchase) : Prop :=
  ∀ key : String, (completedWithKey "idempotency_key" key l).length ≤ 1 ∧
    (completedWithKey "yoomoney_payment_id" key l).length ≤ 1

/-! ### Webhook fixtures -/

def wVerifyOk : Webhook → String → Bool := fun _ _ => true

def wWebhookOk : Webhook :=
  { objectId := some "pay_123", objectStatus := some "succeeded", metaUserId := some 42
    metaPlanName := some "Pro", amountValue := 799 }

def wWebhookPending : Webhook := { wWebhookOk with objectStatus := some "pending" }

/-- A completed Stars purchase already on record for user 7 / plan Pro /
charge `ch1`. -/
def wPurchase : Purchase :=
  { userId := 7, planId := 2, via := "stars", status := "completed", amount := 10
    currency := "STARS"
    payload := [("idempotency_key", starsKey 7 "Pro" "ch1"),
                ("telegram_charge_id", "ch1"), ("plan_name", "Pro")]
    completedAt := some wNow }

def wDB2 : DB := { wDB with purchases := [wPurchase] }

/-! ### Helper lemmas -/

theorem find?_id_map (l : List User) (g : User → User) (hg : ∀ u, (g u).id = u.id)
    (uid : Nat) :
    (l.map g).find? (fun u => u.id == uid) = (l.find? (fun u => u.id == uid)).map g := by
  have hp : ((fun u : User => u.id == uid) ∘ g) = (fun u : User => u.id == uid) := by
    funext u
    simp [Function.comp, hg]
  rw [List.find?_map, hp]

theorem findUser_updateUser (db : DB) (uid : Nat) (f : User → User)
    (hid : ∀ u, (f u).id = u.id) :
    findUser (updateUser db uid f) uid = (findUser db uid).map f := by
  show (db.users.map (fun u => if u.id == uid then f u else u)).find?
      (fun u => u.id == uid) = (findUser db uid).map f
  rw [find?_id_map _ _ (fun u => by by_cases h : u.id = uid <;> simp [h, hid])]
  cases h : db.users.find? (fun u => u.id == uid) with
  | none => simp [findUser, h]
  | some u =>
    have hu : (u.id == uid) = true := @List.find?_some User (fun u => u.id == uid) u _ h
    have hu' : u.id = uid := by simpa using hu
    simp [findUser, h, hu']

theorem findUser_mapBanned (f : Nat → Bool) (db : DB) (uid : Nat) :
    findUser (mapBanned f db) uid
      = (findUser db uid).map (fun u => { u with banned := f u.id }) :=
  find?_id_map db.users (fun u => { u with banned := f u.id }) (fun _ => rfl) uid

/-! ### Claim theorems -/

/-- C1 (evidence of the code bug): for a user whose active, unexpired plan
has `monthly_quota = -1` — the sentinel the repository itself labels unlimited
(src/app/api/routers/payments.py, the `Business` plan) — `get_user_quota`
computes `remaining = max(0, -1 - used_this_month) = 0`, a plain number rather
than a distinguished unlimited value, so `can_make_request` is `false`
regardless of usage history: the exact opposite of the claimed always-true. -/
theorem c1_unlimited_plan_remaining_zero (db : DB) (uid : Nat) (now : DateTime)
    (u : User) (pid : Nat) (pu : DateTime) (p : Plan)
    (hu : findUser db uid = some u) (hpid : u.planId = some pid) (hpid0 : pid ≠ 0)
    (hpu : u.planUntil = some pu) (hlt : dtLt now pu = true)
    (hp : findPlan db pid = some p) (hq : p.monthlyQuota = -1) :
    (getUserQuota db uid now).remaining = 0 ∧ canMakeRequest db uid now = false := by
  have hact : hasActivePlan u now = true := by
    simp [hasActivePlan, hpid, hpu, hlt, hpid0]
  have hplan : u.planId.bind (findPlan db) = some p := by rw [hpid]; exact hp
  have hrem : (getUserQuota db uid now).remaining = 0 := by
    simp only [getUserQuota, hu, hact, hplan, hq, if_true]
    exact max_eq_left (by omega)
  exact ⟨hrem, by simp [canMakeRequest, hrem]⟩

/-- C1 witness: user 42 holds the unexpired `Business` plan
(`monthly_quota = -1`) with zero usage this month, yet `remaining = 0` and
`can_make_request` is `false`. -/
theorem c1_witness :
    (getUserQuota wDB 42 wNow).remaining = 0 ∧ canMakeRequest wDB 42 wNow = false :=
  c1_unlimited_plan_remaining_zero wDB 42 wNow wUserBiz 1 wLater wPlanBiz
    rfl rfl (by decide) rfl (by decide) rfl rfl

/-- C7: `activate_plan(user_id, plan_id, duration_days)` sets the user's
plan reference and `plan_until = now + duration_days`; a repeated call while a
plan is still active resets the expiry window from the new call's time (no
duration stacking); it returns `false` iff the user row does not exist, and in
that case the state is unchanged. -/
theorem c7_activate_plan_spec (db : DB) (uid pid : Nat) (d : Nat) (now : DateTime) :
    ((activatePlan db uid pid d now).1 = false ↔ findUser db uid = none) ∧
    (findUser db uid = none → activatePlan db uid pid d now = (false, db)) ∧
    (∀ u, findUser db uid = some u →
      (activatePlan db uid pid d now).1 = true ∧
      findUser (activatePlan db uid pid d now).2 uid
        = some { u with planId := some pid, planUntil := some (addDays now d) }) ∧
    (∀ u now', findUser db uid = some u →
      findUser (activatePlan (activatePlan db uid pid d now).2 uid pid d now').2 uid
        = some { u with planId := some pid, planUntil := some (addDays now' d) }) := by
  cases h : findUser db uid with
  | none =>
    refine ⟨by simp [activatePlan, h], by simp [activatePlan, h], ?_, ?_⟩
    · intro u hu
      exact absurd hu (by simp)
    · intro u now' hu
      exact absurd hu (by simp)
  | some u0 =>
    have h1 : findUser (activatePlan db uid pid d now).2 uid
        = some { u0 with planId := some pid, planUntil := some (addDays now d) } := by
      simp only [activatePlan, h]
      rw [findUser_updateUser db uid
        (fun u => { u with planId := some pid, planUntil := some (addDays now d) })
        (fun _ => rfl), h]
      rfl
    refine ⟨by simp [activatePlan, h], ?_, ?_, ?_⟩
    · intro hn
      exact absurd hn (by simp)
    · intro u hu
      obtain rfl : u0 = u := by injection hu
      exact ⟨by simp [activatePlan, h], h1⟩
    · intro u now' hu
      obtain rfl : u0 = u := by injection hu
      set db1 := (activatePlan db uid pid d now).2 with hdb1
      show findUser (activatePlan db1 uid pid d now').2 uid = _
      simp only [activatePlan, h1]
      rw [findUser_updateUser db1 uid
        (fun u => { u with planId := some pid, planUntil := some (addDays now' d) })
        (fun _ => rfl), h1]
      rfl

/-- C7 witness: activating plan 2 for existing user 7 at `wNow` succeeds
and sets `plan_until = wNow + 30 days`; re-activating at `wLater` resets the
window to `wLater + 30 days`. -/
theorem c7_witness :
    ((activatePlan wDB 7 2 30 wNow).1 = true ∧
      findUser (activatePlan wDB 7 2 30 wNow).2 7
        = some { wUserTrial with planId := some 2, planUntil := some (addDays wNow 30) }) ∧
    findUser (activatePlan (activatePlan wDB 7 2 30 wNow).2 7 2 30 wLater).2 7
      = some { wUserTrial with planId := some 2, planUntil := some (addDays wLater 30) } :=
  ⟨(c7_activate_plan_spec wDB 7 2 30 wNow).2.2.1 wUserTrial rfl,
   (c7_activate_plan_spec wDB 7 2 30 wNow).2.2.2 wUserTrial wLater rfl⟩

/-- C8: for a `user_id` with no User row, `get_user_quota` returns the
synthetic view — full trial allotment, no plan, `remaining` equal to the trial
allotment — and, being built from SELECTs only (it maps a `DB` to a view and
returns no new state), performs no write; the absent user is not an error. -/
theorem c8_unknown_user_synthetic_view (db : DB) (uid : Nat) (now : DateTime)
    (h : findUser db uid = none) :
    getUserQuota db uid now =
      { trialLeft := (trialRequests : Int), planName := none, planUntil := none
        monthlyQuota := 0, usedThisMonth := 0, remaining := (trialRequests : Int)
        isTrial := true, isActive := true } := by
  simp only [getUserQuota, h]

theorem takeWithinBudget_sum (maxTokens : Nat) :
    ∀ (t : Nat) (l : List Msg),
      takeWithinBudget maxTokens t l = [] ∨
        t + ((takeWithinBudget maxTokens t l).map (fun m => countTokens m.content)).sum
          ≤ maxTokens := by
  intro t l
  induction l generalizing t with
  | nil => exact Or.inl rfl
  | cons m rest ih =>
    by_cases h : t + countTokens m.content ≤ maxTokens
    · right
      simp only [takeWithinBudget, h, if_true, List.map_cons, List.sum_cons]
      rcases ih (t + countTokens m.content) with h0 | hle
      · rw [h0]
        simpa using h
      · omega
    · left
      simp [takeWithinBudget, h]

theorem takeWithinBudget_structure (maxTokens : Nat) :
    ∀ (t : Nat) (l : List Msg),
      takeWithinBudget maxTokens t l = l ∨
        ∃ m rest, l = takeWithinBudget maxTokens t l ++ m :: rest ∧
          t + ((takeWithinBudget maxTokens t l).map (fun m => countTokens m.content)).sum
            + countTokens m.content > maxTokens := by
  intro t l
  induction l generalizing t with
  | nil => exact Or.inl rfl
  | cons m rest ih =>
    by_cases h : t + countTokens m.content ≤ maxTokens
    · simp only [takeWithinBudget, h, if_true]
      rcases ih (t + countTokens m.content) with h0 | ⟨m', rest', hsplit, hgt⟩
      · left
        rw [h0]
      · right
        refine ⟨m', rest', ?_, ?_⟩
        · conv_lhs => rw [hsplit]
          simp
        · simp only [List.map_cons, List.sum_cons]
          omega
    · right
      refine ⟨m, rest, by simp [takeWithinBudget, h], ?_⟩
      simp only [takeWithinBudget, h, if_false, List.map_nil, List.sum_nil]
      omega

/-- C9: `truncate_messages` walks newest-to-oldest accumulating the
character-length cost `count_tokens` per message and stops at the first message
that would push the running total over the budget; the result is a contiguous
suffix of the input in original chronological order whose total estimated cost
is within the budget. -/
theorem c9_truncate_messages_spec (messages : List Msg) (maxTokens : Nat) :
    (∃ dropped, messages = dropped ++ truncateMessages messages maxTokens) ∧
    ((truncateMessages messages maxTokens).map (fun m => countTokens m.content)).sum
      ≤ maxTokens ∧
    (truncateMessages messages maxTokens = messages ∨
      ∃ m l1, messages = l1 ++ m :: truncateMessages messages maxTokens ∧
        ((truncateMessages messages maxTokens).map (fun m => countTokens m.content)).sum
          + countTokens m.content > maxTokens) := by
  have key := takeWithinBudget_structure maxTokens 0 messages.reverse
  have keysum := takeWithinBudget_sum maxTokens 0 messages.reverse
  simp only [truncateMessages]
  set r := takeWithinBudget maxTokens 0 messages.reverse with hr
  have hms : (r.reverse.map (fun m => countTokens m.content)).sum
      = (r.map (fun m => countTokens m.content)).sum := by
    rw [List.map_reverse, List.sum_reverse]
  have hsum : (r.reverse.map (fun m => countTokens m.content)).sum ≤ maxTokens := by
    rw [hms]
    rcases keysum with h | h
    · simp [h]
    · omega
  refine ⟨?_, hsum, ?_⟩
  · rcases key with h | ⟨m, rest, hsplit, _⟩
    · refine ⟨[], ?_⟩
      rw [h, List.reverse_reverse, List.nil_append]
    · refine ⟨rest.reverse ++ [m], ?_⟩
      calc messages = messages.reverse.reverse := (List.reverse_reverse _).symm
        _ = (r ++ m :: rest).reverse := by rw [← hsplit]
        _ = (rest.reverse ++ [m]) ++ r.reverse := by simp
  · rcases key with h | ⟨m, rest, hsplit, hgt⟩
    · left
      rw [h, List.reverse_reverse]
    · right
      refine ⟨m, rest.reverse, ?_, ?_⟩
      · calc messages = messages.reverse.reverse := (List.reverse_reverse _).symm
          _ = (r ++ m :: rest).reverse := by rw [← hsplit]
          _ = rest.reverse ++ m :: r.reverse := by simp
      · rw [hms]
        omega

theorem getUserQuota_mapBanned (f : Nat → Bool) (db : DB) (uid : Nat) (now : DateTime) :
    getUserQuota (mapBanned f db) uid now = getUserQuota db uid now := by
  cases h : findUser db uid with
  | none => simp [getUserQuota, findUser_mapBanned, h]
  | some u =>
    simp only [getUserQuota, findUser_mapBanned, h, Option.map_some']
    rfl

theorem updateUser_mapBanned (f : Nat → Bool) (db : DB) (uid : Nat) :
    updateUser (mapBanned f db) uid (fun u => { u with trialLeft := u.trialLeft - 1 })
      = mapBanned f (updateUser db uid (fun u => { u with trialLeft := u.trialLeft - 1 })) := by
  simp only [updateUser, mapBanned, List.map_map]
  congr 1
  apply List.map_congr_left
  intro u _
  by_cases h : u.id = uid <;> simp [Function.comp, h]

theorem consumeRequest_mapBanned (f : Nat → Bool) (db : DB) (uid tokens : Nat)
    (now : DateTime) :
    consumeRequest (mapBanned f db) uid tokens now
      = ((consumeRequest db uid tokens now).1,
         mapBanned f (consumeRequest db uid tokens now).2) := by
  cases h : findUser db uid with
  | none => simp [consumeRequest, findUser_mapBanned, h]
  | some u =>
    simp only [consumeRequest, findUser_mapBanned, h, Option.map_some']
    have hh : hasActivePlan { u with banned := f u.id } now = hasActivePlan u now := rfl
    have htl : ({ u with banned := f u.id } : User).trialLeft = u.trialLeft := rfl
    by_cases ha : hasActivePlan u now = true
    · simp only [hh, ha, if_true]
      rfl
    · by_cases ht : u.trialLeft > 0
      · simp only [hh, ha, if_false, htl, ht, if_true, Bool.false_eq_true]
        rw [updateUser_mapBanned]
        rfl
      · simp only [hh, ha, if_false, htl, ht, Bool.false_eq_true]

/-- C10 (implicit non-interference hyperproperty): the quota engine and the
chat authorization gate never read the `banned` flag — for any two database
states differing only in banned flags, `get_user_quota`, `can_make_request`,
`consume_request` and the `/send` authorization return identical results and
make the same state update (up to the same banned-flag difference), so a banned
user with remaining quota is authorized and consumes quota exactly as an
unbanned one. -/
theorem c10_banned_flag_noninterference (f : Nat → Bool) (db : DB) (uid tokens : Nat)
    (now : DateTime) :
    getUserQuota (mapBanned f db) uid now = getUserQuota db uid now ∧
    canMakeRequest (mapBanned f db) uid now = canMakeRequest db uid now ∧
    (consumeRequest (mapBanned f db) uid tokens now).1
      = (consumeRequest db uid tokens now).1 ∧
    (consumeRequest (mapBanned f db) uid tokens now).2
      = mapBanned f (consumeRequest db uid tokens now).2 ∧
    sendMessageAuthorized (mapBanned f db) uid now = sendMessageAuthorized db uid now := by
  have hq := getUserQuota_mapBanned f db uid now
  have hc := consumeRequest_mapBanned f db uid tokens now
  exact ⟨hq, by simp [canMakeRequest, hq], by rw [hc], by rw [hc],
    by simp [sendMessageAuthorized, canMakeRequest, hq]⟩

theorem bumpUsage_reqs (uid tokens : Nat) (d : Nat × Nat × Nat) (l : List UsageRow)
    (h : l.find? (usageMatch uid d) ≠ none) :
    (((bumpUsage uid tokens d l).filter (usageMatch uid d)).map (fun r => r.requests)).sum
      = ((l.filter (usageMatch uid d)).map (fun r => r.requests)).sum + 1 := by
  induction l with
  | nil => simp at h
  | cons r rs ih =>
    by_cases hr : usageMatch uid d r = true
    · have hr' : usageMatch uid d
          { r with requests := r.requests + 1, totalTokens := r.totalTokens + tokens }
            = true := hr
      simp only [bumpUsage, hr, if_true, List.filter_cons, hr', List.map_cons, List.sum_cons]
      omega
    · have hrs : rs.find? (usageMatch uid d) ≠ none := by
        intro h0
        apply h
        rw [List.find?_cons_of_neg _ (by simp [hr])]
        exact h0
      simp only [bumpUsage, hr, if_false, List.filter_cons, Bool.false_eq_true, ih hrs]

theorem reqsToday_logUsage (db : DB) (uid tokens : Nat) (now : DateTime) :
    reqsToday (logUsage db uid tokens now) uid (dateOf now)
      = reqsToday db uid (dateOf now) + 1 := by
  show (((logUsageRows uid tokens now db.usage).filter (usageMatch uid (dateOf now))).map
      (fun r => r.requests)).sum = _
  unfold logUsageRows
  cases h : db.usage.find? (usageMatch uid (dateOf now)) with
  | some r =>
    exact bumpUsage_reqs uid tokens (dateOf now) db.usage (by rw [h]; exact Option.noConfusion)
  | none =>
    have hnew : usageMatch uid (dateOf now)
        { userId := uid, date := now, requests := 1, totalTokens := tokens } = true := by
      simp [usageMatch]
    simp [reqsToday, List.filter_append, hnew]

/-- C3: for a user with `trial_left = N` and no active plan, the first N
sequential `consume_request` calls each return `true`, each decrementing
`trial_left` by exactly 1 and logging one usage request for the day, and the
(N+1)th call returns `false` leaving the state — `trial_left = 0` included —
completely unchanged. -/
theorem c3_trial_consumption (db : DB) (uid tokens : Nat) (now : DateTime) (u : User)
    (N : Nat) (hu : findUser db uid = some u) (hna : hasActivePlan u now = false)
    (hN : u.trialLeft = (N : Int)) :
    (∀ k, k ≤ N →
      findUser (consumeIter db uid tokens now k) uid
          = some { u with trialLeft := (N : Int) - k } ∧
        reqsToday (consumeIter db uid tokens now k) uid (dateOf now)
          = reqsToday db uid (dateOf now) + k) ∧
    (∀ k, k < N →
      (consumeRequest (consumeIter db uid tokens now k) uid tokens now).1 = true) ∧
    consumeRequest (consumeIter db uid tokens now N) uid tokens now
      = (false, consumeIter db uid tokens now N) := by
  have hstep : ∀ k, k < N →
      findUser (consumeIter db uid tokens now k) uid
        = some { u with trialLeft := (N : Int) - k } →
      consumeRequest (consumeIter db uid tokens now k) uid tokens now
        = (true, logUsage (updateUser (consumeIter db uid tokens now k) uid
            (fun v => { v with trialLeft := v.trialLeft - 1 })) uid tokens now) := by
    intro k hk hfind
    have hna' : hasActivePlan { u with trialLeft := (N : Int) - k } now
        = hasActivePlan u now := rfl
    have hpos : ({ u with trialLeft := (N : Int) - k } : User).trialLeft > 0 := by
      show (N : Int) - k > 0
      omega
    simp only [consumeRequest, hfind, hna', hna, if_false, hpos, if_true, Bool.false_eq_true]
  have hinv : ∀ k, k ≤ N →
      findUser (consumeIter db uid tokens now k) uid
          = some { u with trialLeft := (N : Int) - k } ∧
        reqsToday (consumeIter db uid tokens now k) uid (dateOf now)
          = reqsToday db uid (dateOf now) + k := by
    intro k
    induction k with
    | zero =>
      intro _
      refine ⟨?_, rfl⟩
      show findUser db uid = _
      rw [hu]
      congr 1
      cases u with
      | mk i tl pid puntil b =>
        simp only [User.mk.injEq, and_true, true_and]
        simp only at hN
        omega
    | succ k ih =>
      intro hk1
      have hk : k < N := hk1
      obtain ⟨hfind, hreq⟩ := ih (Nat.le_of_lt hk)
      have hcons := hstep k hk hfind
      constructor
      · show findUser (consumeRequest (consumeIter db uid tokens now k) uid tokens now).2 uid = _
        rw [hcons]
        show findUser (updateUser (consumeIter db uid tokens now k) uid
          (fun v => { v with trialLeft := v.trialLeft - 1 })) uid = _
        rw [findUser_updateUser (consumeIter db uid tokens now k) uid
          (fun v => { v with trialLeft := v.trialLeft - 1 }) (fun _ => rfl), hfind]
        simp only [Option.map_some', Option.some.injEq, User.mk.injEq, and_true, true_and]
        omega
      · show reqsToday (consumeRequest (consumeIter db uid tokens now k) uid tokens now).2
            uid (dateOf now) = _
        rw [hcons]
        show reqsToday (logUsage (updateUser (consumeIter db uid tokens now k) uid
          (fun v => { v with trialLeft := v.trialLeft - 1 })) uid tokens now) uid (dateOf now) = _
        rw [reqsToday_logUsage]
        show reqsToday (consumeIter db uid tokens now k) uid (dateOf now) + 1 = _
        omega
  refine ⟨hinv, ?_, ?_⟩
  · intro k hk
    rw [hstep k hk (hinv k (Nat.le_of_lt hk)).1]
  · obtain ⟨hfind, _⟩ := hinv N (Nat.le_refl N)
    have hna' : hasActivePlan { u with trialLeft := (N : Int) - N } now
        = hasActivePlan u now := rfl
    have hz : ¬ (({ u with trialLeft := (N : Int) - N } : User).trialLeft > 0) := by
      show ¬ ((N : Int) - N > 0)
      omega
    simp only [consumeRequest, hfind, hna', hna, if_false, hz, Bool.false_eq_true]

/-- C3 witness: user 7 has `trial_left = 2` and no plan in `wDB`: the first
two calls return `true`, the state after two calls has `trial_left = 0` and two
logged requests, and the third call returns `false` changing nothing. -/
theorem c3_witness :
    ((consumeRequest wDB 7 1 wNow).1 = true ∧
      (consumeRequest (consumeIter wDB 7 1 wNow 1) 7 1 wNow).1 = true) ∧
    (findUser (consumeIter wDB 7 1 wNow 2) 7 = some { wUserTrial with trialLeft := 0 } ∧
      reqsToday (consumeIter wDB 7 1 wNow 2) 7 (dateOf wNow) = 2) ∧
    consumeRequest (consumeIter wDB 7 1 wNow 2) 7 1 wNow
      = (false, consumeIter wDB 7 1 wNow 2) := by
  have h := c3_trial_consumption wDB 7 1 wNow wUserTrial 2 rfl rfl rfl
  refine ⟨⟨?_, h.2.1 1 (by decide)⟩, ⟨?_, ?_⟩, h.2.2⟩
  · exact h.2.1 0 (by decide)
  · have := (h.1 2 (by decide)).1
    simpa using this
  · have := (h.1 2 (by decide)).2
    simpa using this

theorem bumpUsage_append_nomatch (uid tokens : Nat) (d : Nat × Nat × Nat)
    (l : List UsageRow) (hl : ∀ r ∈ l, usageMatch uid d r = false)
    (r : UsageRow) (hr : usageMatch uid d r = true) :
    bumpUsage uid tokens d (l ++ [r])
      = l ++ [{ r with requests := r.requests + 1, totalTokens := r.totalTokens + tokens }] := by
  induction l with
  | nil => simp [bumpUsage, hr]
  | cons x xs ih =>
    have hx : usageMatch uid d x = false := hl x (List.mem_cons_self x xs)
    have hxs : ∀ r ∈ xs, usageMatch uid d r = false :=
      fun r hrm => hl r (List.mem_cons_of_mem x hrm)
    simp only [List.cons_append, bumpUsage, hx, Bool.false_eq_true, if_false]
    exact congrArg (List.cons x) (ih hxs)

/-- C6: starting from a state with no Usage row for `(uid, today)`, N
`_log_usage` calls on the same calendar day yield exactly one matching Usage
row, keyed by user and day, with `requests = N` and `total_tokens = N·tokens`;
the per-day requests total is non-decreasing across the day's calls; and the
first call on a different calendar day adds a second row with `requests = 1`,
leaving the first day's row untouched. -/
theorem c6_usage_upsert_by_day (db : DB) (uid tokens : Nat) (now : DateTime)
    (h0 : db.usage.filter (usageMatch uid (dateOf now)) = []) :
    (∀ k, (logIter db uid tokens now k).usage.filter (usageMatch uid (dateOf now))
        = if k = 0 then []
          else [{ userId := uid, date := now, requests := k, totalTokens := k * tokens }]) ∧
    (∀ k, reqsToday (logIter db uid tokens now k) uid (dateOf now)
        ≤ reqsToday (logIter db uid tokens now (k + 1)) uid (dateOf now)) ∧
    (∀ now' N, dateOf now' ≠ dateOf now →
      db.usage.filter (usageMatch uid (dateOf now')) = [] →
      (logUsage (logIter db uid tokens now N) uid tokens now').usage.filter
          (usageMatch uid (dateOf now'))
        = [{ userId := uid, date := now', requests := 1, totalTokens := tokens }] ∧
      (logUsage (logIter db uid tokens now N) uid tokens now').usage.filter
          (usageMatch uid (dateOf now))
        = (logIter db uid tokens now N).usage.filter (usageMatch uid (dateOf now))) := by
  have hdbnone : db.usage.find? (usageMatch uid (dateOf now)) = none := by
    rw [List.find?_eq_none]
    intro x hx
    intro hpx
    have : x ∈ db.usage.filter (usageMatch uid (dateOf now)) :=
      List.mem_filter.mpr ⟨hx, hpx⟩
    rw [h0] at this
    exact absurd this (List.not_mem_nil x)
  have hdbfalse : ∀ r ∈ db.usage, usageMatch uid (dateOf now) r = false := by
    intro r hr
    have := List.find?_eq_none.mp hdbnone r hr
    simpa using this
  have hrowk : ∀ k : Nat, usageMatch uid (dateOf now)
      { userId := uid, date := now, requests := k, totalTokens := k * tokens } = true := by
    intro k
    simp [usageMatch]
  have key : ∀ k, (logIter db uid tokens now k).usage
      = db.usage ++ (if k = 0 then []
          else [{ userId := uid, date := now, requests := k, totalTokens := k * tokens }]) := by
    intro k
    induction k with
    | zero => simp [logIter]
    | succ k ih =>
      show logUsageRows uid tokens now (logIter db uid tokens now k).usage = _
      rw [ih]
      by_cases hk : k = 0
      · subst hk
        rw [if_pos rfl, List.append_nil]
        unfold logUsageRows
        rw [hdbnone]
        simp
      · rw [if_neg hk]
        unfold logUsageRows
        rw [List.find?_append, hdbnone, Option.none_or,
          List.find?_cons_of_pos _ (hrowk k), bumpUsage_append_nomatch uid tokens _ _
            hdbfalse _ (hrowk k)]
        have hne : ¬ (k + 1 = 0) := Nat.succ_ne_zero k
        rw [if_neg hne]
        rw [Nat.succ_mul]
  have hfilter : ∀ k, (logIter db uid tokens now k).usage.filter (usageMatch uid (dateOf now))
      = if k = 0 then []
        else [{ userId := uid, date := now, requests := k, totalTokens := k * tokens }] := by
    intro k
    rw [key k, List.filter_append, h0, List.nil_append]
    by_cases hk : k = 0
    · subst hk
      rfl
    · rw [if_neg hk]
      simp [List.filter_cons, hrowk k]
  refine ⟨hfilter, ?_, ?_⟩
  · intro k
    simp only [reqsToday]
    rw [hfilter k, hfilter (k + 1), if_neg (Nat.succ_ne_zero k)]
    by_cases hk : k = 0
    · subst hk
      simp
    · rw [if_neg hk]
      simp
  · intro now' N hne h0'
    have hnomatch : ∀ r ∈ (logIter db uid tokens now N).usage,
        usageMatch uid (dateOf now') r = false := by
      intro r hr
      rw [key N] at hr
      rcases List.mem_append.mp hr with hmem | hmem
      · have := List.find?_eq_none.mp (by
          rw [List.find?_eq_none]
          intro x hx hpx
          have : x ∈ db.usage.filter (usageMatch uid (dateOf now')) :=
            List.mem_filter.mpr ⟨hx, hpx⟩
          rw [h0'] at this
          exact absurd this (List.not_mem_nil x)) r hmem
        simpa using this
      · by_cases hN : N = 0
        · rw [hN] at hmem
          simp at hmem
        · rw [if_neg hN] at hmem
          have hrq : r = { userId := uid, date := now, requests := N, totalTokens := N * tokens } := by simpa using hmem
          subst hrq
          simp [usageMatch, hne]
          exact fun h => hne h.symm
    have hfindnone : (logIter db uid tokens now N).usage.find?
        (usageMatch uid (dateOf now')) = none := by
      rw [List.find?_eq_none]
      intro x hx
      rw [hnomatch x hx]
      exact Bool.false_ne_true
    have hnew : usageMatch uid (dateOf now')
        { userId := uid, date := now', requests := 1, totalTokens := tokens } = true := by
      simp [usageMatch]
    have hnewold : usageMatch uid (dateOf now)
        { userId := uid, date := now', requests := 1, totalTokens := tokens } = false := by
      have hb : (dateOf now' == dateOf now) = false := by
        simpa using hne
      simp [usageMatch, hb]
    constructor
    · show ((logUsageRows uid tokens now' (logIter db uid tokens now N).usage).filter
        (usageMatch uid (dateOf now'))) = _
      unfold logUsageRows
      rw [hfindnone, List.filter_append, List.filter_cons, hnew]
      rw [List.filter_eq_nil_iff.mpr (by
        intro r hr
        rw [hnomatch r hr]
        exact Bool.false_ne_true)]
      rfl
    · show ((logUsageRows uid tokens now' (logIter db uid tokens now N).usage).filter
        (usageMatch uid (dateOf now))) = _
      unfold logUsageRows
      rw [hfindnone, List.filter_append, List.filter_cons, hnewold]
      simp

/-- C6 witness: in `wDB` (no usage rows), two same-day `_log_usage` calls
for user 7 produce one row `(7, wNow, requests = 2)`, the requests total is
non-decreasing from the first to the second call, and the first call on the
next day (`wLater`) adds a second row with `requests = 1` while the first
day's row is untouched. -/
theorem c6_witness :
    (logIter wDB 7 5 wNow 2).usage.filter (usageMatch 7 (dateOf wNow))
        = [{ userId := 7, date := wNow, requests := 2, totalTokens := 10 }] ∧
    reqsToday (logIter wDB 7 5 wNow 1) 7 (dateOf wNow)
        ≤ reqsToday (logIter wDB 7 5 wNow 2) 7 (dateOf wNow) ∧
    (logUsage (logIter wDB 7 5 wNow 2) 7 5 wLater).usage.filter (usageMatch 7 (dateOf wLater))
        = [{ userId := 7, date := wLater, requests := 1, totalTokens := 5 }] := by
  have h := c6_usage_upsert_by_day wDB 7 5 wNow rfl
  refine ⟨?_, h.2.1 1, ?_⟩
  · have := h.1 2
    simpa using this
  · exact (h.2.2 wLater 2 (by decide) rfl).1

/-- C8 witness: user id 99 has no row in `wDB`; the quota view is the
synthetic full-trial view with `remaining = 30`. -/
theorem c8_witness :
    findUser wDB 99 = none ∧
    getUserQuota wDB 99 wNow =
      { trialLeft := 30, planName := none, planUntil := none
        monthlyQuota := 0, usedThisMonth := 0, remaining := 30
        isTrial := true, isActive := true } :=
  ⟨by decide, c8_unknown_user_synthetic_view wDB 99 wNow (by decide)⟩

theorem activatePlan_of_none (db : DB) (uid pid d : Nat) (now : DateTime)
    (h : findUser db uid = none) : activatePlan db uid pid d now = (false, db) := by
  simp only [activatePlan, h]

theorem activatePlan_of_some (db : DB) (uid pid d : Nat) (now : DateTime) (u : User)
    (h : findUser db uid = some u) :
    activatePlan db uid pid d now
      = (true, updateUser db uid (fun v =>
          { v with planId := some pid, planUntil := some (addDays now d) })) := by
  simp only [activatePlan, h]

theorem stageCommit_of_none (db : DB) (uid pid : Nat) (q : Purchase) (now : DateTime)
    (h : findUser db uid = none) : stageCommit db uid pid q now = (false, db) := by
  simp only [stageCommit]
  rw [activatePlan_of_none { db with purchases := db.purchases ++ [q] } uid pid 30 now h]
  rfl

theorem stageCommit_of_some (db : DB) (uid pid : Nat) (q : Purchase) (now : DateTime)
    (u : User) (h : findUser db uid = some u) :
    stageCommit db uid pid q now
      = (true, updateUser { db with purchases := db.purchases ++ [q] } uid
          (fun v => { v with planId := some pid, planUntil := some (addDays now 30) })) := by
  simp only [stageCommit]
  rw [activatePlan_of_some { db with purchases := db.purchases ++ [q] } uid pid 30 now u h]
  rfl

theorem stageCommit_atomic_shape (db : DB) (uid pid : Nat) (q : Purchase) (now : DateTime)
    (hqs : q.status = "completed") (hqp : q.planId = pid) :
    ((stageCommit db uid pid q now).2 = db ∨
      ((stageCommit db uid pid q now).1 = true ∧
        ∃ p : Purchase, (stageCommit db uid pid q now).2.purchases = db.purchases ++ [p] ∧
          p.status = "completed" ∧
          ∃ u, findUser (stageCommit db uid pid q now).2 uid = some u ∧
            u.planId = some p.planId ∧ u.planUntil = some (addDays now 30))) ∧
    (findUser db uid = none → (stageCommit db uid pid q now).2 = db) := by
  cases h : findUser db uid with
  | none =>
    rw [stageCommit_of_none db uid pid q now h]
    exact ⟨Or.inl rfl, fun _ => rfl⟩
  | some u =>
    rw [stageCommit_of_some db uid pid q now u h]
    constructor
    · right
      refine ⟨rfl, q, rfl, hqs, ?_⟩
      refine ⟨{ u with planId := some pid, planUntil := some (addDays now 30) }, ?_, ?_, rfl⟩
      · show findUser (updateUser { db with purchases := db.purchases ++ [q] } uid
          (fun v => { v with planId := some pid, planUntil := some (addDays now 30) })) uid = _
        rw [findUser_updateUser { db with purchases := db.purchases ++ [q] } uid
          (fun v => { v with planId := some pid, planUntil := some (addDays now 30) })
          (fun _ => rfl)]
        rw [show findUser { db with purchases := db.purchases ++ [q] } uid = some u from h]
        rfl
      · rw [hqp]
    · intro hn
      exact absurd hn (by simp)

theorem processStarsPayment_cases (db : DB) (uid : Nat) (planName chargeId : String)
    (amount : Int) (now : DateTime) :
    processStarsPayment db uid planName chargeId amount now = (true, db) ∨
    processStarsPayment db uid planName chargeId amount now = (false, db) ∨
    ∃ plan q, findPlanByName db planName = some plan ∧
      q.status = "completed" ∧ q.planId = plan.id ∧
      payloadGet q.payload "idempotency_key" = some (starsKey uid planName chargeId) ∧
      payloadGet q.payload "yoomoney_payment_id" = none ∧
      db.purchases.find? (fun pu => payloadGet pu.payload "idempotency_key"
        == some (starsKey uid planName chargeId)) = none ∧
      processStarsPayment db uid planName chargeId amount now
        = stageCommit db uid plan.id q now := by
  cases h1 : db.purchases.find? (fun pu => payloadGet pu.payload "idempotency_key"
      == some (starsKey uid planName chargeId)) with
  | some pu =>
    left
    simp only [processStarsPayment, h1]
  | none =>
    cases h2 : findPlanByName db planName with
    | none =>
      right
      left
      simp only [processStarsPayment, h1, h2]
    | some plan =>
      right
      right
      refine ⟨plan,
        { userId := uid, planId := plan.id, via := "stars", status := "completed"
          amount := amount, currency := "STARS"
          payload := [("idempotency_key", starsKey uid planName chargeId),
                      ("telegram_charge_id", chargeId), ("plan_name", planName)]
          completedAt := some now }, rfl, rfl, rfl, rfl, rfl, rfl, ?_⟩
      simp only [processStarsPayment, h1, h2]

theorem processYoomoneyWebhook_guards (verify : Webhook → String → Bool) (db : DB)
    (w : Webhook) (sig : String) (now : DateTime) :
    (verify w sig = false → processYoomoneyWebhook verify db w sig now = (false, db)) ∧
    ((!(match w.objectId with | some s => s != "" | none => false)
        || (w.objectStatus != some "succeeded")) = true →
      processYoomoneyWebhook verify db w sig now = (false, db)) ∧
    ((!(match w.metaUserId with | some n => n != 0 | none => false)
        || !(match w.metaPlanName with | some s => s != "" | none => false)) = true →
      processYoomoneyWebhook verify db w sig now = (false, db)) ∧
    (verify w sig = true →
     (!(match w.objectId with | some s => s != "" | none => false)
        || (w.objectStatus != some "succeeded")) = false →
     (!(match w.metaUserId with | some n => n != 0 | none => false)
        || !(match w.metaPlanName with | some s => s != "" | none => false)) = false →
      processYoomoneyWebhook verify db w sig now
        = (match db.purchases.find? (fun pu => payloadGet pu.payload "yoomoney_payment_id"
              == some (w.objectId.getD "")) with
           | some _ => (true, db)
           | none =>
             match findPlanByName db (w.metaPlanName.getD "") with
             | none => (false, db)
             | some plan =>
               stageCommit db (w.metaUserId.getD 0) plan.id
                 { userId := w.metaUserId.getD 0, planId := plan.id, via := "yoomoney"
                   status := "completed", amount := w.amountValue, currency := "RUB"
                   payload := [("yoomoney_payment_id", w.objectId.getD ""),
                               ("plan_name", w.metaPlanName.getD ""),
                               ("webhook_data", reprWebhook w)]
                   completedAt := some now } now)) := by
  refine ⟨?_, ?_, ?_, ?_⟩
  · intro hvf
    simp [processYoomoneyWebhook, hvf]
  · intro hg
    cases hb : verify w sig
    · simp [processYoomoneyWebhook, hb]
    · simp only [processYoomoneyWebhook, hb, Bool.not_true, Bool.false_eq_true, if_false, hg,
        if_true]
  · intro hg
    cases hb : verify w sig
    · simp [processYoomoneyWebhook, hb]
    · cases hb2 : (!(match w.objectId with | some s => s != "" | none => false)
          || (w.objectStatus != some "succeeded"))
      · simp only [processYoomoneyWebhook, hb, Bool.not_true, Bool.false_eq_true, if_false,
          hb2, hg, if_true]
      · simp only [processYoomoneyWebhook, hb, Bool.not_true, Bool.false_eq_true, if_false,
          hb2, if_true]
  · intro hv hg2 hg3
    simp only [processYoomoneyWebhook, hv, Bool.not_true, Bool.false_eq_true, if_false,
      hg2, hg3]

theorem processYoomoneyWebhook_cases (verify : Webhook → String → Bool) (db : DB)
    (w : Webhook) (sig : String) (now : DateTime) :
    processYoomoneyWebhook verify db w sig now = (true, db) ∨
    processYoomoneyWebhook verify db w sig now = (false, db) ∨
    ∃ plan q, findPlanByName db (w.metaPlanName.getD "") = some plan ∧
      q.status = "completed" ∧ q.planId = plan.id ∧
      payloadGet q.payload "yoomoney_payment_id" = some (w.objectId.getD "") ∧
      payloadGet q.payload "idempotency_key" = none ∧
      db.purchases.find? (fun pu => payloadGet pu.payload "yoomoney_payment_id"
        == some (w.objectId.getD "")) = none ∧
      processYoomoneyWebhook verify db w sig now
        = stageCommit db (w.metaUserId.getD 0) plan.id q now := by
  have hguards := processYoomoneyWebhook_guards verify db w sig now
  cases hv : verify w sig
  · exact Or.inr (Or.inl (hguards.1 hv))
  · cases hg2 : (!(match w.objectId with | some s => s != "" | none => false)
        || (w.objectStatus != some "succeeded"))
    · cases hg3 : (!(match w.metaUserId with | some n => n != 0 | none => false)
          || !(match w.metaPlanName with | some s => s != "" | none => false))
      · have heq := hguards.2.2.2 hv hg2 hg3
        cases h1 : db.purchases.find? (fun pu => payloadGet pu.payload "yoomoney_payment_id"
            == some (w.objectId.getD "")) with
        | some pu =>
          left
          rw [heq, h1]
        | none =>
          cases h2 : findPlanByName db (w.metaPlanName.getD "") with
          | none =>
            right
            left
            rw [heq, h1, h2]
          | some plan =>
            right
            right
            refine ⟨plan,
              { userId := w.metaUserId.getD 0, planId := plan.id, via := "yoomoney"
                status := "completed", amount := w.amountValue, currency := "RUB"
                payload := [("yoomoney_payment_id", w.objectId.getD ""),
                            ("plan_name", w.metaPlanName.getD ""),
                            ("webhook_data", reprWebhook w)]
                completedAt := some now }, rfl, rfl, rfl, rfl, rfl, rfl, ?_⟩
            rw [heq, h1, h2]
      · exact Or.inr (Or.inl (hguards.2.2.1 hg3))
    · exact Or.inr (Or.inl (hguards.2.1 hg2))

theorem completedWithKey_append_le (field key : String) (l : List Purchase) (q : Purchase)
    (h : payloadGet q.payload field = some key →
      l.find? (fun pu => payloadGet pu.payload field == some key) = none)
    (hlen : (completedWithKey field key l).length ≤ 1) :
    (completedWithKey field key (l ++ [q])).length ≤ 1 := by
  unfold completedWithKey at hlen ⊢
  rw [List.filter_append, List.length_append]
  by_cases hq : (q.status == "completed" && payloadGet q.payload field == some key) = true
  · have hqk : payloadGet q.payload field = some key := by
      have h2 := ((Bool.and_eq_true _ _).mp hq).2
      simpa using h2
    have hnone := h hqk
    have hempty : (l.filter (fun pu => pu.status == "completed"
        && payloadGet pu.payload field == some key)).length = 0 := by
      rw [List.length_eq_zero, List.filter_eq_nil_iff]
      intro pu hpu hcontra
      have hkey := ((Bool.and_eq_true _ _).mp hcontra).2
      have := List.find?_eq_none.mp hnone pu hpu
      exact this hkey
    have hone : (List.filter (fun pu => pu.status == "completed"
        && payloadGet pu.payload field == some key) [q]).length ≤ 1 := by
      rw [List.filter_cons, if_pos hq]
      exact Nat.le_refl 1
    omega
  · have hz : (List.filter (fun pu => pu.status == "completed"
        && payloadGet pu.payload field == some key) [q]) = [] := by
      rw [List.filter_cons, if_neg hq]
      rfl
    rw [hz]
    simpa using hlen

theorem idemInvariant_append (l : List Purchase) (q : Purchase) (hinv : idemInvariant l)
    (hik : ∀ key, payloadGet q.payload "idempotency_key" = some key →
      l.find? (fun pu => payloadGet pu.payload "idempotency_key" == some key) = none)
    (hyk : ∀ key, payloadGet q.payload "yoomoney_payment_id" = some key →
      l.find? (fun pu => payloadGet pu.payload "yoomoney_payment_id" == some key) = none) :
    idemInvariant (l ++ [q]) := fun key =>
  ⟨completedWithKey_append_le _ key l q (hik key) (hinv key).1,
   completedWithKey_append_le _ key l q (hyk key) (hinv key).2⟩

theorem c2aux_stars_inv (db : DB) (uid : Nat) (planName chargeId : String) (amount : Int)
    (now : DateTime) (hinv : idemInvariant db.purchases) :
    idemInvariant (processStarsPayment db uid planName chargeId amount now).2.purchases := by
  rcases processStarsPayment_cases db uid planName chargeId amount now with
    h | h | ⟨plan, q, hplan, hqs, hqp, hqik, hqyk, hdup, heq⟩
  · rw [h]
    exact hinv
  · rw [h]
    exact hinv
  · rw [heq]
    cases hu : findUser db uid with
    | none =>
      rw [stageCommit_of_none db uid plan.id q now hu]
      exact hinv
    | some u =>
      rw [stageCommit_of_some db uid plan.id q now u hu]
      show idemInvariant (db.purchases ++ [q])
      apply idemInvariant_append db.purchases q hinv
      · intro key hkey
        rw [hqik] at hkey
        injection hkey with hkey
        subst hkey
        exact hdup
      · intro key hkey
        rw [hqyk] at hkey
        exact absurd hkey (by simp)

theorem c2aux_yoomoney_inv (verify : Webhook → String → Bool) (db : DB) (w : Webhook)
    (sig : String) (now : DateTime) (hinv : idemInvariant db.purchases) :
    idemInvariant (processYoomoneyWebhook verify db w sig now).2.purchases := by
  rcases processYoomoneyWebhook_cases verify db w sig now with
    h | h | ⟨plan, q, hplan, hqs, hqp, hqyk, hqik, hdup, heq⟩
  · rw [h]
    exact hinv
  · rw [h]
    exact hinv
  · rw [heq]
    cases hu : findUser db (w.metaUserId.getD 0) with
    | none =>
      rw [stageCommit_of_none db (w.metaUserId.getD 0) plan.id q now hu]
      exact hinv
    | some u =>
      rw [stageCommit_of_some db (w.metaUserId.getD 0) plan.id q now u hu]
      show idemInvariant (db.purchases ++ [q])
      apply idemInvariant_append db.purchases q hinv
      · intro key hkey
        rw [hqik] at hkey
        exact absurd hkey (by simp)
      · intro key hkey
        rw [hqyk] at hkey
        injection hkey with hkey
        subst hkey
        exact hdup

theorem c2aux_stars_replay (db : DB) (uid : Nat) (planName chargeId : String)
    (amount : Int) (now : DateTime)
    (h : ∃ pu ∈ db.purchases, pu.status = "completed" ∧
      payloadGet pu.payload "idempotency_key" = some (starsKey uid planName chargeId)) :
    processStarsPayment db uid planName chargeId amount now = (true, db) := by
  obtain ⟨pu, hmem, hst, hkey⟩ := h
  cases h1 : db.purchases.find? (fun pu => payloadGet pu.payload "idempotency_key"
      == some (starsKey uid planName chargeId)) with
  | none =>
    exfalso
    have := List.find?_eq_none.mp h1 pu hmem
    apply this
    simp [hkey]
  | some pu2 =>
    simp only [processStarsPayment, h1]

theorem c2aux_yoomoney_resubmit (verify : Webhook → String → Bool) (db db1 : DB)
    (w : Webhook) (sig : String) (now now' : DateTime)
    (h : processYoomoneyWebhook verify db w sig now = (true, db1)) :
    processYoomoneyWebhook verify db1 w sig now' = (true, db1) := by
  have hguards := processYoomoneyWebhook_guards verify db w sig now
  cases hv : verify w sig with
  | false =>
    rw [hguards.1 hv] at h
    exact absurd h (by simp)
  | true =>
    cases hg2 : (!(match w.objectId with | some s => s != "" | none => false)
        || (w.objectStatus != some "succeeded")) with
    | true =>
      rw [hguards.2.1 hg2] at h
      exact absurd h (by simp)
    | false =>
      cases hg3 : (!(match w.metaUserId with | some n => n != 0 | none => false)
          || !(match w.metaPlanName with | some s => s != "" | none => false)) with
      | true =>
        rw [hguards.2.2.1 hg3] at h
        exact absurd h (by simp)
      | false =>
        have heq := hguards.2.2.2 hv hg2 hg3
        have heq1 := (processYoomoneyWebhook_guards verify db1 w sig now').2.2.2 hv hg2 hg3
        cases h1 : db.purchases.find? (fun pu => payloadGet pu.payload "yoomoney_payment_id"
            == some (w.objectId.getD "")) with
        | some pu =>
          have hproc : processYoomoneyWebhook verify db w sig now = (true, db) := by
            rw [heq, h1]
          rw [hproc] at h
          obtain rfl : db = db1 := congrArg Prod.snd h
          rw [heq1, h1]
        | none =>
          cases h2 : findPlanByName db (w.metaPlanName.getD "") with
          | none =>
            have hproc : processYoomoneyWebhook verify db w sig now = (false, db) := by
              rw [heq, h1, h2]
            rw [hproc] at h
            exact absurd h (by simp)
          | some plan =>
            have hproc : processYoomoneyWebhook verify db w sig now
                = stageCommit db (w.metaUserId.getD 0) plan.id
                  { userId := w.metaUserId.getD 0, planId := plan.id, via := "yoomoney"
                    status := "completed", amount := w.amountValue, currency := "RUB"
                    payload := [("yoomoney_payment_id", w.objectId.getD ""),
                                ("plan_name", w.metaPlanName.getD ""),
                                ("webhook_data", reprWebhook w)]
                    completedAt := some now } now := by
              rw [heq, h1, h2]
            cases hu : findUser db (w.metaUserId.getD 0) with
            | none =>
              rw [hproc, stageCommit_of_none db (w.metaUserId.getD 0) plan.id _ now hu] at h
              exact absurd h (by simp)
            | some u =>
              rw [hproc, stageCommit_of_some db (w.metaUserId.getD 0) plan.id _ now u hu,
                Prod.mk.injEq] at h
              have hdb1 := h.2
              have hfind : db1.purchases.find?
                  (fun pu => payloadGet pu.payload "yoomoney_payment_id"
                    == some (w.objectId.getD "")) = some
                  { userId := w.metaUserId.getD 0, planId := plan.id, via := "yoomoney"
                    status := "completed", amount := w.amountValue, currency := "RUB"
                    payload := [("yoomoney_payment_id", w.objectId.getD ""),
                                ("plan_name", w.metaPlanName.getD ""),
                                ("webhook_data", reprWebhook w)]
                    completedAt := some now } := by
                rw [← hdb1]
                show ((db.purchases ++ [_]).find? _) = _
                rw [List.find?_append, h1, Option.none_or]
                rw [List.find?_cons_of_pos _ (by simp [payloadGet])]
              rw [heq1, hfind]

/-- C2: per idempotency key (the Stars composite
`stars_{user}_{plan}_{charge_id}` in `payload.idempotency_key`, the gateway
payment id in `payload.yoomoney_payment_id`) at most one completed Purchase
ever exists — both reconciler operations preserve the invariant; reprocessing a
payment whose key already has a completed Purchase reports success with no
state change: the Stars path returns `(true, db)` unchanged, and a second
submission of a gateway webhook that succeeded returns success leaving the
once-updated state untouched. -/
theorem c2_idempotency_key_unique (db db1 : DB) (uid : Nat) (planName chargeId : String)
    (amount : Int) (now now' : DateTime) (verify : Webhook → String → Bool)
    (w : Webhook) (sig : String) :
    (idemInvariant db.purchases →
      idemInvariant (processStarsPayment db uid planName chargeId amount now).2.purchases) ∧
    (idemInvariant db.purchases →
      idemInvariant (processYoomoneyWebhook verify db w sig now).2.purchases) ∧
    ((∃ pu ∈ db.purchases, pu.status = "completed" ∧
        payloadGet pu.payload "idempotency_key" = some (starsKey uid planName chargeId)) →
      processStarsPayment db uid planName chargeId amount now = (true, db)) ∧
    (processYoomoneyWebhook verify db w sig now = (true, db1) →
      processYoomoneyWebhook verify db1 w sig now' = (true, db1)) :=
  ⟨c2aux_stars_inv db uid planName chargeId amount now,
   c2aux_yoomoney_inv verify db w sig now,
   c2aux_stars_replay db uid planName chargeId amount now,
   c2aux_yoomoney_resubmit verify db db1 w sig now now'⟩

/-- C2 witness: replaying the already-completed Stars payment
`(7, Pro, ch1)` on `wDB2` reports success and leaves the state untouched, and
submitting the same succeeded gateway webhook a second time returns success
leaving the state of the first submission untouched. -/
theorem c2_witness :
    processStarsPayment wDB2 7 "Pro" "ch1" 10 wNow = (true, wDB2) ∧
    processYoomoneyWebhook wVerifyOk
        (processYoomoneyWebhook wVerifyOk wDB wWebhookOk "sig" wNow).2 wWebhookOk "sig" wLater
      = (true, (processYoomoneyWebhook wVerifyOk wDB wWebhookOk "sig" wNow).2) :=
  ⟨(c2_idempotency_key_unique wDB2 wDB 7 "Pro" "ch1" 10 wNow wLater wVerifyOk
      wWebhookOk "sig").2.2.1 ⟨wPurchase, by simp [wDB2], rfl, rfl⟩,
   (c2_idempotency_key_unique wDB
      (processYoomoneyWebhook wVerifyOk wDB wWebhookOk "sig" wNow).2 7 "Pro" "ch1" 10
      wNow wLater wVerifyOk wWebhookOk "sig").2.2.2 rfl⟩

/-- C4: each reconciler operation is atomic: either the state is unchanged,
or the operation succeeded and exactly one completed Purchase was appended with
the purchased plan simultaneously activated for the user
(`plan_until = now + 30 days`); in particular when `activate_plan` fails
because the user row is missing, the transaction is rolled back and no Purchase
remains. -/
theorem c4_reconciler_atomicity (db : DB) (uid : Nat) (planName chargeId : String)
    (amount : Int) (now : DateTime) (verify : Webhook → String → Bool)
    (w : Webhook) (sig : String) :
    ((processStarsPayment db uid planName chargeId amount now).2 = db ∨
      ((processStarsPayment db uid planName chargeId amount now).1 = true ∧
        ∃ p : Purchase, (processStarsPayment db uid planName chargeId amount now).2.purchases
            = db.purchases ++ [p] ∧ p.status = "completed" ∧
          ∃ u, findUser (processStarsPayment db uid planName chargeId amount now).2 uid
              = some u ∧ u.planId = some p.planId ∧
            u.planUntil = some (addDays now 30))) ∧
    (findUser db uid = none →
      (processStarsPayment db uid planName chargeId amount now).2 = db) ∧
    ((processYoomoneyWebhook verify db w sig now).2 = db ∨
      ((processYoomoneyWebhook verify db w sig now).1 = true ∧
        ∃ p : Purchase, (processYoomoneyWebhook verify db w sig now).2.purchases
            = db.purchases ++ [p] ∧ p.status = "completed" ∧
          ∃ u, findUser (processYoomoneyWebhook verify db w sig now).2 (w.metaUserId.getD 0)
              = some u ∧ u.planId = some p.planId ∧
            u.planUntil = some (addDays now 30))) ∧
    (findUser db (w.metaUserId.getD 0) = none →
      (processYoomoneyWebhook verify db w sig now).2 = db) := by
  have hs := processStarsPayment_cases db uid planName chargeId amount now
  have hy := processYoomoneyWebhook_cases verify db w sig now
  refine ⟨?_, ?_, ?_, ?_⟩
  · rcases hs with h | h | ⟨plan, q, hplan, hqs, hqp, hqik, hqyk, hdup, heq⟩
    · rw [h]
      exact Or.inl rfl
    · rw [h]
      exact Or.inl rfl
    · rw [heq]
      exact (stageCommit_atomic_shape db uid plan.id q now hqs hqp).1
  · intro hn
    rcases hs with h | h | ⟨plan, q, hplan, hqs, hqp, hqik, hqyk, hdup, heq⟩
    · rw [h]
    · rw [h]
    · rw [heq]
      exact (stageCommit_atomic_shape db uid plan.id q now hqs hqp).2 hn
  · rcases hy with h | h | ⟨plan, q, hplan, hqs, hqp, hqyk, hqik, hdup, heq⟩
    · rw [h]
      exact Or.inl rfl
    · rw [h]
      exact Or.inl rfl
    · rw [heq]
      exact (stageCommit_atomic_shape db (w.metaUserId.getD 0) plan.id q now hqs hqp).1
  · intro hn
    rcases hy with h | h | ⟨plan, q, hplan, hqs, hqp, hqyk, hqik, hdup, heq⟩
    · rw [h]
    · rw [h]
    · rw [heq]
      exact (stageCommit_atomic_shape db (w.metaUserId.getD 0) plan.id q now hqs hqp).2 hn

/-- C4 witness: a Stars payment for the nonexistent user 99 rolls back —
the state is exactly the original `wDB`, no Purchase row remains — and the
same payment for existing user 7 leaves the appended completed Purchase with
plan 2 activated until `wNow + 30` days. -/
theorem c4_witness :
    ((processStarsPayment wDB 99 "Pro" "ch0" 10 wNow).2 = wDB) ∧
    ((processStarsPayment wDB 7 "Pro" "ch1" 10 wNow).1 = true ∧
      ∃ p : Purchase, (processStarsPayment wDB 7 "Pro" "ch1" 10 wNow).2.purchases
          = wDB.purchases ++ [p] ∧ p.status = "completed" ∧
        ∃ u, findUser (processStarsPayment wDB 7 "Pro" "ch1" 10 wNow).2 7 = some u ∧
          u.planId = some p.planId ∧ u.planUntil = some (addDays wNow 30)) := by
  constructor
  · exact (c4_reconciler_atomicity wDB 99 "Pro" "ch0" 10 wNow wVerifyOk
      wWebhookOk "sig").2.1 rfl
  · have h := (c4_reconciler_atomicity wDB 7 "Pro" "ch1" 10 wNow wVerifyOk
      wWebhookOk "sig").1
    rcases h with h | h
    · exfalso
      have : (processStarsPayment wDB 7 "Pro" "ch1" 10 wNow).2.purchases.length
          = wDB.purchases.length := by rw [h]
      rw [show (processStarsPayment wDB 7 "Pro" "ch1" 10 wNow).2.purchases.length = 1
        from rfl] at this
      exact absurd this (by decide)
    · exact h

/-- C5 counterexample: a gateway webhook that passes signature verification
with object status `"pending"` IS treated as an error, contradicting the claim:
the reconciler returns `false` and the route answers HTTP 400
"Webhook processing failed" instead of a success acknowledgement. -/
theorem c5_counterexample :
    (processYoomoneyWebhook wVerifyOk wDB wWebhookPending "sig" wNow).1 = false ∧
    yoomoneyWebhookRoute wVerifyOk wDB wWebhookPending (some "sig") wNow
      = (HttpResult.clientError 400 "Webhook processing failed", wDB) := by
  constructor
  · rfl
  · rfl

/-- C5 (amended): a verified webhook whose object status is anything other
than `"succeeded"` is logged and causes no state change — no Purchase, no
activation — but it IS reported as a failure: the reconciler returns `false`
and the webhook route turns that into an HTTP 400 error response (the claim's
"not an error" does not hold). -/
theorem c5_nonsucceeded_no_state_change (verify : Webhook → String → Bool) (db : DB)
    (w : Webhook) (sig : String) (now : DateTime) (_hv : verify w sig = true)
    (hs : w.objectStatus ≠ some "succeeded") :
    processYoomoneyWebhook verify db w sig now = (false, db) ∧
    yoomoneyWebhookRoute verify db w (some sig) now
      = (HttpResult.clientError 400 "Webhook processing failed", db) := by
  have hg2 : (!(match w.objectId with | some s => s != "" | none => false)
      || (w.objectStatus != some "succeeded")) = true := by
    have : (w.objectStatus != some "succeeded") = true := by
      simpa using hs
    rw [this, Bool.or_true]
  have h1 := (processYoomoneyWebhook_guards verify db w sig now).2.1 hg2
  refine ⟨h1, ?_⟩
  simp only [yoomoneyWebhookRoute, h1]
  rfl

/-- C5 witness (for the amended claim): the verified `"pending"` webhook on
`wDB` yields `(false, wDB)` — no state change — and the route answers 400. -/
theorem c5_witness :
    processYoomoneyWebhook wVerifyOk wDB wWebhookPending "sig" wNow = (false, wDB) ∧
    yoomoneyWebhookRoute wVerifyOk wDB wWebhookPending (some "sig") wNow
      = (HttpResult.clientError 400 "Webhook processing failed", wDB) :=
  c5_nonsucceeded_no_state_change wVerifyOk wDB wWebhookPending "sig" wNow rfl (by decide)

end TgBot
